import Mathlib

/-!
Shallow embedding of the TRWebSocketController (src/unnamed/part_001).

The controller is a JavaScript object holding:
  - a login flag and three user-registered callbacks (status / market data / news),
  - a private array of request-id slots (objects with fields used, processingCb),
  - a private news-envelope map from composite key to {fragments, totalSize}.

External collaborators (base64 decoding via atob, zlib.pako.inflate, JSON.parse
of the decompressed news text, JSON.parse of the inbound frame) are black boxes
and are modelled as fields of a Prims record.  A JavaScript binary string of
char codes 0..255 is modelled as a byte list (List Nat); string concatenation
and .length coincide with list append and List.length, and the intermediate
split/charCodeAt/Uint8Array conversion of _processNewsEnvelope is the identity
under this representation.

JavaScript exceptions (notably TypeError from reading a property of undefined,
and throws from atob / inflate / JSON.parse) are modelled with Except / an
Option String "pending exception" component; the try/catch blocks of
_onMessage and _processNewsEnvelope catch them and report a processingError
status event exactly as the source does.

Observable effects (invoking user callbacks, sending frames on the WebSocket)
are modelled as an emitted list of Event values, in invocation order.
-/

namespace TRWS

set_option linter.unusedVariables false

/-- Abstract JSON documents: result type of the black-box JSON.parse applied to
the decompressed news payload. -/
inductive Json where
  | str (s : String)
  | num (n : Int)
  | bool (b : Bool)
  | null
  | arr (xs : List Json)
  | obj (members : List (String × Json))

/-- Callback values that the source ever stores in a slot's processingCb:
the user's market-data callback captured by requestData, or the controller's
own _processNewsEnvelope method stored by requestNews. -/
inductive Cb where
  | marketData
  | processNews
deriving DecidableEq

/-- One entry of the private _requestIDs array: { used, processingCb }.
processingCb = none models both null and undefined (neither passes
isCallback). -/
structure Slot where
  used : Bool
  processingCb : Option Cb
deriving DecidableEq

/-- One news envelope: { fragments, totalSize } as stored in _newsEnvelope.
fragments is the accumulated decoded binary string (byte list). -/
structure Envelope where
  fragments : List Nat
  totalSize : Nat
deriving DecidableEq

/-- The nested State object of an inbound message ({ Data, Stream }); a field
is none when absent (undefined) in the JSON. -/
structure StateField where
  Data : Option String
  Stream : Option String
deriving DecidableEq

/-- The Fields object of an MRN news update. -/
structure NewsFields where
  FRAGMENT : String
  FRAG_NUM : Nat
  TOT_SIZE : Nat
  GUID : String
  MRN_SRC : String
deriving DecidableEq

/-- One inbound protocol message (one element of the JSON array in a frame).
mtype models the "Type" property (Type is a Lean keyword), keyName models
Key.Name (none when the whole Key object is absent), fields models the
Fields object of a news update.  A none marks an absent (undefined)
property. -/
structure Msg where
  mtype : Option String
  domain : Option String
  id : Option Int
  state : Option StateField
  keyName : Option String
  fields : Option NewsFields
deriving DecidableEq

/-- Observable effects: user-callback invocations (with the status event codes
of TRWebSocketController.prototype.status) and outbound WebSocket sends. -/
inductive Event where
  | processingError (emsg : String)
  | connected
  | disconnected
  | loginResponse (m : Msg)
  | msgStatus (m : Msg)
  | marketData (m : Msg)
  | newsStory (ric : String) (doc : Json)
  | sendPong
  | sendClose (id : Int)
  | sendMarketPrice (id : Nat) (streaming : Bool) (domain ric service : String)

/-- The black-box external primitives: atob (base64 text to binary string,
modelled as a byte list), zlib.pako.inflate with string output, JSON.parse of
the decompressed news text, and JSON.parse of a whole inbound frame (which the
source immediately iterates as an array of messages).  An error value models a
thrown exception carrying e.message. -/
structure Prims where
  atob : String → Except String (List Nat)
  inflate : List Nat → Except String String
  jsonParse : String → Except String Json
  parseFrame : String → Except String (List Msg)

/-- The mutable state of one controller instance: the _loggedIn flag, the
private _requestIDs array, the private _newsEnvelope map (association list
with at most one binding per key), and whether each user callback is
registered (a registered callback passes isCallback; null does not). -/
structure Ctrl where
  loggedIn : Bool
  requestIDs : List Slot
  newsEnvelope : List (String × Envelope)
  statusCb : Bool
  marketDataCb : Bool
  newsStoryCb : Bool
deriving DecidableEq

/-- The constant MRN_DOMAIN of the source. -/
def MRN_DOMAIN : String := "NewsTextAnalytics"

/-- Message of the TypeError thrown by JavaScript when a property of
undefined is read (the exact wording is engine-specific; only its presence
matters). -/
def undefErr : String := "TypeError: cannot read property of undefined"

/-- JavaScript array indexing _requestIDs[id]: undefined (none) when the
index is negative, fractional-free out of range, or the array has no such
entry.  The array is dense because entries are only ever appended by
_getID. -/
def slotAt (l : List Slot) (id : Int) : Option Slot :=
  if id < 0 then none else l.get? id.toNat

/-- The scan loop of _getID: find the first slot with used == false, mark it
used and clear its processingCb (both assignments of the source), returning
the updated array and the index; none when every slot is used. -/
def getIDAux : List Slot → Option (List Slot × Nat)
  | [] => none
  | s :: rest =>
    if !s.used then
      some (⟨true, none⟩ :: rest, 0)
    else
      match getIDAux rest with
      | some (rest', i) => some (s :: rest', i + 1)
      | none => none

/-- _getID: scan for a free slot; if none, append a fresh used slot at the
end and return its index (_requestIDs.length - 1 after the append). -/
def getID (l : List Slot) : List Slot × Nat :=
  match getIDAux l with
  | some r => r
  | none => (l ++ [⟨true, none⟩], l.length)

/-- _removeID: reads _requestIDs[id].used, so it throws a TypeError when the
entry is undefined; otherwise it clears the used flag (returning true) when
the slot was in use, and returns false leaving the array unchanged when the
slot was already free.  It never touches processingCb. -/
def removeID (l : List Slot) (id : Int) : Except String (List Slot × Bool) :=
  match slotAt l id with
  | none => .error undefErr
  | some s =>
    if s.used then .ok (l.set id.toNat { s with used := false }, true)
    else .ok (l, false)

/-- _removeID applied to a possibly-undefined message Id
(_requestIDs[undefined] is undefined, so reading .used throws). -/
def removeIDAt (l : List Slot) (id : Option Int) : Except String (List Slot × Bool) :=
  match id with
  | none => .error undefErr
  | some i => removeID l i

/-- _setCallback: set processingCb when the entry exists, else do nothing. -/
def setCallback (l : List Slot) (id : Int) (cb : Option Cb) : List Slot :=
  match slotAt l id with
  | none => l
  | some s => l.set id.toNat { s with processingCb := cb }

/-- _getCallback: return processingCb when the entry exists; an undefined
entry or a null callback both yield none (neither passes isCallback). -/
def getCallback (l : List Slot) (id : Option Int) : Option Cb :=
  match id with
  | none => none
  | some i =>
    match slotAt l i with
    | none => none
    | some s => s.processingCb

/-- _getNewsEnvelope: lookup in the _newsEnvelope object. -/
def getNewsEnvelope : List (String × Envelope) → String → Option Envelope
  | [], _ => none
  | (k', v) :: rest, k => if k' == k then some v else getNewsEnvelope rest k

/-- _newsEnvelope[key] = envelope: replace the existing binding in place, or
append a new one. -/
def setNewsEnvelope : List (String × Envelope) → String → Envelope → List (String × Envelope)
  | [], k, v => [(k, v)]
  | (k', v') :: rest, k, v =>
    if k' == k then (k, v) :: rest else (k', v') :: setNewsEnvelope rest k v

/-- delete _newsEnvelope[key]: remove the binding for the key. -/
def deleteNewsEnvelope : List (String × Envelope) → String → List (String × Envelope)
  | [], _ => []
  | (k', v') :: rest, k =>
    if k' == k then deleteNewsEnvelope rest k
    else (k', v') :: deleteNewsEnvelope rest k

/-- The processingError report of a catch block: invoke the status callback
with event code 0 when one is registered (console.log is ignored). -/
def perr (c : Ctrl) (e : String) : List Event :=
  if c.statusCb then [Event.processingError e] else []

/-- The tail of _processNewsEnvelope (the code after the "All fragments have
been received" banner): convert the assembled binary string to bytes, inflate,
JSON.parse, and invoke the news callback with (msg.Key.Name, contents).  A
throw from inflate or JSON.parse is caught by the surrounding try, which
reports a processingError.  The controller state is never modified here. -/
def completeStory (p : Prims) (c : Ctrl) (name : String) (frag : List Nat) : Ctrl × List Event :=
  match p.inflate frag with
  | .error e => (c, perr c e)
  | .ok s =>
    match p.jsonParse s with
    | .error e => (c, perr c e)
    | .ok doc => (c, if c.newsStoryCb then [Event.newsStory name doc] else [])

/-- The composite news key built by _processNewsEnvelope:
msg.Key.Name + ":" + msg.Fields.MRN_SRC + ":" + msg.Fields.GUID. -/
def mkKey (name src guid : String) : String :=
  name ++ ":" ++ src ++ ":" ++ guid

/-- The envelope-management core of _processNewsEnvelope (source lines
425-445) followed by the processing tail, for a decoded fragment under the
given key.  Notes kept from the source: (1) the envelope-append
`envelope.fragments = envelope.fragments + fragment` mutates the map entry in
place; when the subsequent length test passes the entry is deleted right
away, so the two steps collapse to either "store appended" or "delete and
process"; (2) when FRAG_NUM > 1 and no envelope exists for the key, control
falls through to the processing tail with the lone fragment (there is no
early return on that path). -/
def processFragment (p : Prims) (c : Ctrl) (name key : String) (frag : List Nat)
    (fragNum totSize : Nat) : Ctrl × List Event :=
  if 1 < fragNum then
    match getNewsEnvelope c.newsEnvelope key with
    | some env =>
      let acc := env.fragments ++ frag
      if acc.length < env.totalSize then
        ({ c with newsEnvelope := setNewsEnvelope c.newsEnvelope key ⟨acc, env.totalSize⟩ }, [])
      else
        completeStory p { c with newsEnvelope := deleteNewsEnvelope c.newsEnvelope key } name acc
    | none => completeStory p c name frag
  else
    if frag.length < totSize then
      ({ c with newsEnvelope := setNewsEnvelope c.newsEnvelope key ⟨frag, totSize⟩ }, [])
    else
      completeStory p c name frag

/-- _processNewsEnvelope, including its try/catch: check the Update/MRN
guard, decode the fragment (a TypeError on a missing Fields object and an
atob throw are caught and reported), build the composite key (a TypeError on
a missing Key object likewise), then run the envelope management. -/
def processNewsEnvelope (p : Prims) (c : Ctrl) (m : Msg) : Ctrl × List Event :=
  if m.mtype == some "Update" && m.domain == some MRN_DOMAIN then
    match m.fields with
    | none => (c, perr c undefErr)
    | some f =>
      match p.atob f.FRAGMENT with
      | .error e => (c, perr c e)
      | .ok frag =>
        match m.keyName with
        | none => (c, perr c undefErr)
        | some name =>
          processFragment p c name (mkKey name f.MRN_SRC f.GUID) frag f.FRAG_NUM f.TOT_SIZE
  else (c, [])

/-- Invocation of the fetched processing callback (if isCallback): the user's
market-data callback is an opaque observation; _processNewsEnvelope runs the
reassembler (it catches its own exceptions, so it completes normally). -/
def invokeCb (p : Prims) (c : Ctrl) (cb : Option Cb) (m : Msg) : Ctrl × List Event × Option String :=
  match cb with
  | none => (c, [], none)
  | some Cb.marketData => (c, [Event.marketData m], none)
  | some Cb.processNews =>
    match processNewsEnvelope p c m with
    | (c', evs) => (c', evs, none)

/-- The body of the dispatch loop of _onMessage for one array element.  The
Option String component is a pending JavaScript exception (none = normal
completion); it is raised by reading data.State.Data / data.State.Stream when
State is undefined, or by _removeID on an undefined entry.  The source first
fetches the processing callback (into this._msgCb, used immediately and only
here, so modelled as a local), then releases the slot on a non-streaming
refresh, then invokes the callback. -/
def dispatchOne (p : Prims) (c : Ctrl) (m : Msg) : Ctrl × List Event × Option String :=
  if m.mtype == some "Ping" then
    (c, [Event.sendPong], none)
  else if m.domain == some "Login" then
    match m.state with
    | none => (c, [], some undefErr)
    | some st =>
      ({ c with loggedIn := st.Data == some "Ok" },
       (if c.statusCb then [Event.loginResponse m] else []), none)
  else if m.mtype == some "Status" then
    match m.state with
    | none => (c, [], some undefErr)
    | some st =>
      if st.Stream == some "Closed" then
        match removeIDAt c.requestIDs m.id with
        | .error e => (c, [], some e)
        | .ok (l, _) =>
          ({ c with requestIDs := l },
           (if c.statusCb then [Event.msgStatus m] else []), none)
      else
        (c, (if c.statusCb then [Event.msgStatus m] else []), none)
  else
    let cb := getCallback c.requestIDs m.id
    if m.mtype == some "Refresh" then
      match m.state with
      | none => (c, [], some undefErr)
      | some st =>
        if st.Stream == some "NonStreaming" then
          match removeIDAt c.requestIDs m.id with
          | .error e => (c, [], some e)
          | .ok (l, _) => invokeCb p { c with requestIDs := l } cb m
        else invokeCb p c cb m
    else invokeCb p c cb m

/-- The for-loop of _onMessage over the elements of one frame, together with
the surrounding try/catch: a pending exception abandons the remaining
elements and reports one processingError (events already emitted stand). -/
def dispatchElems (p : Prims) : Ctrl → List Msg → Ctrl × List Event
  | c, [] => (c, [])
  | c, m :: rest =>
    match dispatchOne p c m with
    | (c', evs, none) =>
      match dispatchElems p c' rest with
      | (c'', evs') => (c'', evs ++ evs')
    | (c', evs, some e) => (c', evs ++ perr c' e)

/-- _onMessage: ignore empty frames; JSON.parse the text (a throw is caught
and reported as a processingError), then dispatch the elements in array
order. -/
def onMessage (p : Prims) (c : Ctrl) (raw : String) : Ctrl × List Event :=
  if raw.length > 0 then
    match p.parseFrame raw with
    | .error e => (c, perr c e)
    | .ok msgs => dispatchElems p c msgs
  else (c, [])

/-- _onClose: clear the login flag and report a disconnected status event;
nothing else is touched. -/
def onClose (c : Ctrl) : Ctrl × List Event :=
  ({ c with loggedIn := false },
   if c.statusCb then [Event.disconnected] else [])

/-- requestData: when not logged in, return 0 immediately (the source falls
out before allocating or sending).  Otherwise allocate a slot, store the
current market-data callback (possibly null) as its processing callback,
send the marketPrice request and return the id. -/
def requestData (c : Ctrl) (ric serviceName : String) (streaming : Bool) (domain : String) :
    Ctrl × List Event × Nat :=
  if !c.loggedIn then (c, [], 0)
  else
    match getID c.requestIDs with
    | (l, id) =>
      let l2 := setCallback l (Int.ofNat id) (if c.marketDataCb then some Cb.marketData else none)
      ({ c with requestIDs := l2 },
       [Event.sendMarketPrice id streaming domain ric serviceName], id)

/-- requestNews: delegate to requestData with the MRN domain and streaming =
true, then overwrite the slot's processing callback with
_processNewsEnvelope (when not logged in, requestData returned 0, so this
touches slot 0 whenever such an entry exists). -/
def requestNews (c : Ctrl) (serviceName ric : String) : Ctrl × List Event × Nat :=
  match requestData c ric serviceName true MRN_DOMAIN with
  | (c1, evs, id) =>
    ({ c1 with requestIDs := setCallback c1.requestIDs (Int.ofNat id) (some Cb.processNews) },
     evs, id)

/-- closeRequest: send the Close message, then _removeID(id).  The send
always happens; a TypeError from _removeID on an unknown id is not caught
and escapes to the caller (the error component). -/
def closeRequest (c : Ctrl) (id : Int) : List Event × Except String Ctrl :=
  ([Event.sendClose id],
   match removeID c.requestIDs id with
   | .ok (l, _) => .ok { c with requestIDs := l }
   | .error e => .error e)

/-- A well-formed MRN news update message with the given key fields, base64
fragment text, sequence number and declared total size. -/
def mkNewsMsg (name src guid fragTxt : String) (num totSize : Nat) : Msg :=
  { mtype := some "Update", domain := some MRN_DOMAIN, id := none, state := none,
    keyName := some name, fields := some ⟨fragTxt, num, totSize, guid, src⟩ }

/-- A run of news updates with consecutive sequence numbers starting at k,
all under one key and one declared total size; each list element pairs the
base64 fragment text with its decoded byte sequence (the bytes are used only
in statements, via the atob hypothesis). -/
def mkNewsMsgs (name src guid : String) (T : Nat) : Nat → List (String × List Nat) → List Msg
  | _, [] => []
  | k, q :: rest => mkNewsMsg name src guid q.1 k T :: mkNewsMsgs name src guid T (k + 1) rest

/-- Delivery of a sequence of news updates to the reassembler (each routed to
_processNewsEnvelope, the processing callback registered by requestNews),
threading the state and concatenating the emitted events. -/
def processNewsSeq (p : Prims) : Ctrl → List Msg → Ctrl × List Event
  | c, [] => (c, [])
  | c, m :: rest =>
    match processNewsEnvelope p c m with
    | (c', evs) =>
      match processNewsSeq p c' rest with
      | (c'', evs') => (c'', evs ++ evs')

/-- Index of the first slot with used == false, in the scan order of _getID. -/
def firstFree : List Slot → Option Nat
  | [] => none
  | s :: rest => if s.used then (firstFree rest).map (· + 1) else some 0

/-- Concatenation of the decoded byte sequences of a fragment run. -/
def joinDecs (fl : List (String × List Nat)) : List Nat :=
  (fl.map Prod.snd).flatten

/-- Total decoded length of a fragment run. -/
def sumLens (fl : List (String × List Nat)) : Nat :=
  (fl.map (fun q => q.2.length)).sum

/-- The envelope-map invariant of the design: every stored envelope has
accumulated at most its declared total size. -/
def envInv (m : List (String × Envelope)) : Prop :=
  ∀ kv ∈ m, kv.2.fragments.length ≤ kv.2.totalSize

/-! Concrete instances used by counterexamples and witnesses. -/

/-- Primitive instances whose calls all fail (never reached in the scenarios
that use them, or used to exhibit a thrown inflate). -/
def pTriv : Prims where
  atob := fun _ => .error "x"
  inflate := fun _ => .error "x"
  jsonParse := fun _ => .error "x"
  parseFrame := fun _ => .error "Unexpected token"

/-- A logged-in controller with all callbacks registered and empty tables. -/
def cBase : Ctrl where
  loggedIn := true
  requestIDs := []
  newsEnvelope := []
  statusCb := true
  marketDataCb := true
  newsStoryCb := true

/-- Primitives for the unknown-continuation run where inflate throws. -/
def pC1err : Prims :=
  { pTriv with atob := fun _ => .ok [7], inflate := fun _ => .error "incorrect header check" }

/-- Primitives for the unknown-continuation run where the black boxes happen
to succeed on the lone fragment. -/
def pC1ok : Prims :=
  { pTriv with atob := fun _ => .ok [7],
               inflate := fun _ => .ok "txt",
               jsonParse := fun _ => .ok (Json.str "d") }

/-- A continuation fragment (sequence number 2, declared size 100) whose key
RIC:SRC:GUID has no envelope in cBase's empty map. -/
def mC1 : Msg := mkNewsMsg "RIC" "SRC" "GUID" "Zg==" 2 100

/-! Theorems settling the claims. -/

/-- Claim C1 (evaluation of the defect): a continuation fragment with
FRAG_NUM = 2 whose composite key has no envelope in the map is NOT dropped
silently.  The source has no early return on that path: control falls through
to the processing tail, which inflates the lone fragment — emitting a
processingError status event when inflation throws, and invoking the news
callback with whatever the black boxes produce when they happen to succeed.
In both runs the state (in particular the envelope map) is unchanged. -/
theorem claim_C1_unknown_continuation :
    processNewsEnvelope pC1err cBase mC1
      = (cBase, [Event.processingError "incorrect header check"])
    ∧ processNewsEnvelope pC1ok cBase mC1
      = (cBase, [Event.newsStory "RIC" (Json.str "d")]) := by
  exact ⟨rfl, rfl⟩

/-- Counterexample to claim C2: releasing an unknown index is an error, not a
no-op returning false — _removeID reads .used from an undefined entry, and
closeRequest propagates the resulting TypeError to its caller. -/
theorem claim_C2_counterexample :
    removeID cBase.requestIDs 0 = Except.error undefErr
    ∧ (closeRequest cBase 0).2 = Except.error undefErr := by
  exact ⟨rfl, rfl⟩

/-- Claim C2 (amended): for an index whose slot entry exists, release marks
the slot free and returns true when it is in use, and is a no-op returning
false when it is already free (and closeRequest then returns normally); but
for an unknown index release throws a TypeError, and closeRequest propagates
that error to its caller (after the Close message was already sent). -/
theorem claim_C2_release (c : Ctrl) (id : Int) (s : Slot) :
    (slotAt c.requestIDs id = some s → s.used = true →
        removeID c.requestIDs id
          = .ok (c.requestIDs.set id.toNat { s with used := false }, true)
        ∧ closeRequest c id
          = ([Event.sendClose id],
             .ok { c with requestIDs := c.requestIDs.set id.toNat { s with used := false } }))
    ∧ (slotAt c.requestIDs id = some s → s.used = false →
        removeID c.requestIDs id = .ok (c.requestIDs, false)
        ∧ closeRequest c id = ([Event.sendClose id], .ok c))
    ∧ (slotAt c.requestIDs id = none →
        removeID c.requestIDs id = .error undefErr
        ∧ closeRequest c id = ([Event.sendClose id], .error undefErr)) := by
  refine ⟨fun hs hu => ?_, fun hs hu => ?_, fun hs => ?_⟩
  · simp [removeID, closeRequest, hs, hu]
  · simp [removeID, closeRequest, hs, hu]
  · simp [removeID, closeRequest, hs]

/-- A controller with one used slot (the login slot). -/
def cOne : Ctrl := { cBase with requestIDs := [⟨true, none⟩] }

/-- Witness for claim C2 at a concrete in-use slot. -/
theorem claim_C2_release_witness :
    removeID cOne.requestIDs 0 = .ok ([⟨false, none⟩], true)
    ∧ closeRequest cOne 0
      = ([Event.sendClose 0], .ok { cOne with requestIDs := [⟨false, none⟩] }) :=
  (claim_C2_release cOne 0 ⟨true, none⟩).1 rfl rfl

/-- Claim C5: dispatch of an inbound message whose Domain is "Login" (and
which the earlier Ping test does not capture) with a State object present
sets the login flag exactly when State.Data is the literal "Ok", and emits a
loginResponse status event carrying the full message, successful or not; no
exception is raised and the slot table and envelope map are untouched. -/
theorem claim_C5_login (p : Prims) (c : Ctrl) (m : Msg) (st : StateField)
    (hping : m.mtype ≠ some "Ping") (hdom : m.domain = some "Login")
    (hst : m.state = some st) (hcb : c.statusCb = true) :
    ((dispatchOne p c m).1.loggedIn = true ↔ st.Data = some "Ok")
    ∧ (dispatchOne p c m).2.1 = [Event.loginResponse m]
    ∧ (dispatchOne p c m).2.2 = none
    ∧ (dispatchOne p c m).1.requestIDs = c.requestIDs
    ∧ (dispatchOne p c m).1.newsEnvelope = c.newsEnvelope := by
  simp [dispatchOne, hdom, hst, hcb, hping]

/-- A failed login response (State.Data = "Suspect"). -/
def mLoginBad : Msg :=
  { mtype := some "Status", domain := some "Login", id := some 1,
    state := some ⟨some "Suspect", some "Open"⟩, keyName := none, fields := none }

/-- Witness for claim C5 at a concrete failed login response. -/
theorem claim_C5_login_witness :
    ((dispatchOne pTriv cBase mLoginBad).1.loggedIn = true
      ↔ (some "Suspect" : Option String) = some "Ok")
    ∧ (dispatchOne pTriv cBase mLoginBad).2.1 = [Event.loginResponse mLoginBad]
    ∧ (dispatchOne pTriv cBase mLoginBad).2.2 = none
    ∧ (dispatchOne pTriv cBase mLoginBad).1.requestIDs = cBase.requestIDs
    ∧ (dispatchOne pTriv cBase mLoginBad).1.newsEnvelope = cBase.newsEnvelope :=
  claim_C5_login pTriv cBase mLoginBad ⟨some "Suspect", some "Open"⟩
    (by decide) rfl rfl rfl

/-- Claim C9: on transport-close the session clears the login flag and emits
a disconnected status event with no payload, and modifies nothing else — the
slot table and the envelope map are exactly as before. -/
theorem claim_C9_onClose (c : Ctrl) (hcb : c.statusCb = true) :
    onClose c = ({ c with loggedIn := false }, [Event.disconnected])
    ∧ (onClose c).1.requestIDs = c.requestIDs
    ∧ (onClose c).1.newsEnvelope = c.newsEnvelope := by
  simp [onClose, hcb]

/-- A controller with a pending slot and a pending envelope. -/
def cBusy : Ctrl :=
  { cBase with requestIDs := [⟨true, none⟩, ⟨true, some Cb.processNews⟩],
               newsEnvelope := [("R:S:G", ⟨[1, 2], 5⟩)] }

/-- Witness for claim C9 at a concrete busy controller state. -/
theorem claim_C9_onClose_witness :
    onClose cBusy = ({ cBusy with loggedIn := false }, [Event.disconnected])
    ∧ (onClose cBusy).1.requestIDs = cBusy.requestIDs
    ∧ (onClose cBusy).1.newsEnvelope = cBusy.newsEnvelope :=
  claim_C9_onClose cBusy rfl

/-- Claim C10: when not logged in, requestData returns 0 without allocating a
slot, registering a handler, or sending anything; requestNews in the same
state also returns 0 but still overwrites the processing callback of slot 0
(the login slot) with _processNewsEnvelope whenever a slot-0 entry exists,
and changes nothing when the table is empty. -/
theorem claim_C10_not_logged_in (c : Ctrl) (ric svc dom : String) (streaming : Bool)
    (h : c.loggedIn = false) :
    requestData c ric svc streaming dom = (c, [], 0)
    ∧ requestNews c svc ric
      = ({ c with requestIDs := setCallback c.requestIDs 0 (some Cb.processNews) }, [], 0)
    ∧ (∀ s rest, c.requestIDs = s :: rest →
        (requestNews c svc ric).1.requestIDs
          = { s with processingCb := some Cb.processNews } :: rest)
    ∧ (c.requestIDs = [] → requestNews c svc ric = (c, [], 0)) := by
  have h1 : requestData c ric svc streaming dom = (c, [], 0) := by
    simp [requestData, h]
  have h1' : requestData c ric svc true MRN_DOMAIN = (c, [], 0) := by
    simp [requestData, h]
  refine ⟨h1, ?_, ?_, ?_⟩
  · simp [requestNews, h1']
  · intro s rest hr
    simp [requestNews, h1', setCallback, slotAt, hr, List.set]
  · intro hr
    have hset : setCallback c.requestIDs 0 (some Cb.processNews) = c.requestIDs := by
      rw [hr]; rfl
    simp [requestNews, h1', hset]

/-- The scan of _getID agrees with firstFree: it finds exactly the first free
index, updating that slot to a fresh used one. -/
theorem getIDAux_eq_firstFree (l : List Slot) :
    getIDAux l = (firstFree l).map (fun i => (l.set i ⟨true, none⟩, i)) := by
  induction l with
  | nil => rfl
  | cons s rest ih =>
    by_cases hs : s.used
    · simp only [getIDAux, firstFree, hs, Bool.not_true, Bool.false_eq_true, if_false, if_true, ih]
      cases firstFree rest with
      | none => rfl
      | some i => rfl
    · simp only [getIDAux, firstFree, hs, Bool.not_false, Bool.false_eq_true, if_false, if_true]
      rfl

/-- When firstFree finds an index, that index is in range and its slot is
free. -/
theorem firstFree_free (l : List Slot) :
    ∀ i, firstFree l = some i → ∃ h : i < l.length, (l.get ⟨i, h⟩).used = false := by
  induction l with
  | nil => intro i h; simp [firstFree] at h
  | cons s rest ih =>
    intro i h
    by_cases hs : s.used
    · simp only [firstFree, if_pos hs] at h
      cases hf : firstFree rest with
      | none => rw [hf] at h; simp at h
      | some j =>
        rw [hf, Option.map_some'] at h
        obtain rfl : j + 1 = i := Option.some.inj h
        obtain ⟨hlt, hfree⟩ := ih j hf
        exact ⟨Nat.succ_lt_succ hlt, hfree⟩
    · simp only [firstFree, if_neg hs] at h
      obtain rfl : (0 : Nat) = i := Option.some.inj h
      exact ⟨Nat.succ_pos _, by simpa using hs⟩

/-- firstFree returns an index not larger than any free index. -/
theorem firstFree_min (l : List Slot) :
    ∀ j (h : j < l.length), (l.get ⟨j, h⟩).used = false →
      ∃ i, firstFree l = some i ∧ i ≤ j := by
  induction l with
  | nil => intro j h; exact absurd h (by simp)
  | cons s rest ih =>
    intro j hj hfree
    by_cases hs : s.used
    · cases j with
      | zero =>
        have h0 : s.used = false := hfree
        rw [h0] at hs; simp at hs
      | succ j' =>
        obtain ⟨i, hi, hle⟩ := ih j' (Nat.lt_of_succ_lt_succ hj) hfree
        refine ⟨i + 1, ?_, Nat.succ_le_succ hle⟩
        simp only [firstFree, if_pos hs, hi, Option.map_some']
    · exact ⟨0, by simp only [firstFree, if_neg hs], Nat.zero_le _⟩

/-- Claim C3: allocate returns the smallest free index, marking it used and
clearing its handler; it appends a new used slot exactly when no slot is
free; consequently for any table state, if an index j holds a released
(free) slot then the next allocate returns an index no larger than j — a
released index is reused before any larger or fresh index. -/
theorem claim_C3_allocate (l : List Slot) :
    (∀ i, firstFree l = some i →
        getID l = (l.set i ⟨true, none⟩, i)
        ∧ ∃ h : i < l.length, (l.get ⟨i, h⟩).used = false)
    ∧ (firstFree l = none → getID l = (l ++ [⟨true, none⟩], l.length))
    ∧ (∀ j (h : j < l.length), (l.get ⟨j, h⟩).used = false → (getID l).2 ≤ j) := by
  refine ⟨fun i hi => ⟨?_, firstFree_free l i hi⟩, fun hn => ?_, fun j hj hfree => ?_⟩
  · simp [getID, getIDAux_eq_firstFree, hi]
  · simp [getID, getIDAux_eq_firstFree, hn]
  · obtain ⟨i, hi, hle⟩ := firstFree_min l j hj hfree
    have : getID l = (l.set i ⟨true, none⟩, i) := by
      simp [getID, getIDAux_eq_firstFree, hi]
    rw [this]
    exact hle

/-- A table whose slot 1 was just released. -/
def lFree1 : List Slot := [⟨true, none⟩, ⟨false, some Cb.marketData⟩, ⟨true, none⟩]

/-- Witness for claim C3: on a table with slot 1 free, allocate returns index
1, marks it used, clears its stale handler, and appends nothing. -/
theorem claim_C3_allocate_witness :
    (getID lFree1 = (lFree1.set 1 ⟨true, none⟩, 1)
      ∧ ∃ h : 1 < lFree1.length, (lFree1.get ⟨1, h⟩).used = false)
    ∧ (getID lFree1).2 ≤ 1 :=
  ⟨(claim_C3_allocate lFree1).1 1 rfl,
   (claim_C3_allocate lFree1).2.2 1 (by decide) (by decide)⟩

/-- Indexing after set at the same (known-good) index yields the new value. -/
theorem slotAt_set_self (l : List Slot) (i : Int) (s v : Slot)
    (h : slotAt l i = some s) : slotAt (l.set i.toNat v) i = some v := by
  unfold slotAt at h ⊢
  by_cases hi : i < 0
  · rw [if_pos hi] at h; exact absurd h (by simp)
  · rw [if_neg hi] at h ⊢
    obtain ⟨hn, -⟩ := List.get?_eq_some.mp h
    exact List.get?_set_eq_of_lt v hn

/-- The slot table after releasing the slot that m's Refresh names. -/
def released (c : Ctrl) (i : Int) (s : Slot) : Ctrl :=
  { c with requestIDs := c.requestIDs.set i.toNat { s with used := false } }

/-- A controller with the login slot and one in-use data slot whose handler
is the market-data callback. -/
def cC6 : Ctrl :=
  { cBase with requestIDs := [⟨true, none⟩, ⟨true, some Cb.marketData⟩] }

/-- A non-streaming Refresh for Id 1. -/
def mC6 : Msg :=
  { mtype := some "Refresh", domain := some "MarketPrice", id := some 1,
    state := some ⟨none, some "NonStreaming"⟩, keyName := none, fields := none }

/-- A later plain data message (an Update) carrying the same Id 1. -/
def mC6upd : Msg :=
  { mtype := some "Update", domain := some "MarketPrice", id := some 1,
    state := none, keyName := none, fields := none }

/-- Counterexample to claim C6: with slot 1 in use and holding the market-data
handler, a Refresh/NonStreaming for Id 1 releases the slot and delivers the
payload — and a second, identical data message carrying the now-stale Id 1,
arriving before any re-allocation, is delivered to the handler again. -/
theorem claim_C6_counterexample :
    (dispatchOne pTriv cC6 mC6).1.requestIDs = [⟨true, none⟩, ⟨false, some Cb.marketData⟩]
    ∧ (dispatchOne pTriv cC6 mC6).2.1 = [Event.marketData mC6]
    ∧ (dispatchOne pTriv (dispatchOne pTriv cC6 mC6).1 mC6).2.1 = [Event.marketData mC6] := by
  exact ⟨rfl, rfl, rfl⟩

/-- Claim C6 (amended): a Refresh whose stream-state is NonStreaming releases
the slot named by its Id (before, not after, invoking the handler — the
handler was fetched first) and the payload is delivered to the registered
handler; but the release clears only the used flag and leaves the handler
stored, and _getCallback does not consult the used flag, so a later data
message carrying the same stale Id is still delivered to that handler until
the index is re-allocated (only allocation clears the stored handler). -/
theorem claim_C6_one_shot (p : Prims) (c : Ctrl) (m m' : Msg) (i : Int) (s : Slot)
    (st : StateField)
    (hty : m.mtype = some "Refresh") (hdom : m.domain ≠ some "Login")
    (hid : m.id = some i) (hst : m.state = some st)
    (hstream : st.Stream = some "NonStreaming")
    (hslot : slotAt c.requestIDs i = some s) (hused : s.used = true)
    (hcb : s.processingCb = some Cb.marketData)
    (hty1 : m'.mtype ≠ some "Ping") (hty2 : m'.mtype ≠ some "Status")
    (hty3 : m'.mtype ≠ some "Refresh") (hdom' : m'.domain ≠ some "Login")
    (hid' : m'.id = some i) :
    dispatchOne p c m = (released c i s, [Event.marketData m], none)
    ∧ dispatchOne p (released c i s) m'
      = (released c i s, [Event.marketData m'], none) := by
  have hdomf : (m.domain == some "Login") = false := beq_eq_false_iff_ne.mpr hdom
  have hdomf' : (m'.domain == some "Login") = false := beq_eq_false_iff_ne.mpr hdom'
  have hty1f : (m'.mtype == some "Ping") = false := beq_eq_false_iff_ne.mpr hty1
  have hty2f : (m'.mtype == some "Status") = false := beq_eq_false_iff_ne.mpr hty2
  have hty3f : (m'.mtype == some "Refresh") = false := beq_eq_false_iff_ne.mpr hty3
  have hslot' : slotAt (released c i s).requestIDs i = some { s with used := false } :=
    slotAt_set_self c.requestIDs i s { s with used := false } hslot
  constructor
  · simp [dispatchOne, hty, hdomf, hid, hst, hstream, removeIDAt, removeID, hslot, hused,
          getCallback, invokeCb, hcb, released]
  · simp [dispatchOne, hty1f, hty2f, hty3f, hdomf', hid',
          getCallback, hslot', invokeCb, hcb]

/-- Witness for claim C6: the amended one-shot behavior at slot 1 of the
concrete table, with a plain Update as the later stale-Id message. -/
theorem claim_C6_one_shot_witness :
    dispatchOne pTriv cC6 mC6 = (released cC6 1 ⟨true, some Cb.marketData⟩, [Event.marketData mC6], none)
    ∧ dispatchOne pTriv (released cC6 1 ⟨true, some Cb.marketData⟩) mC6upd
      = (released cC6 1 ⟨true, some Cb.marketData⟩, [Event.marketData mC6upd], none) :=
  claim_C6_one_shot pTriv cC6 mC6 mC6upd 1 ⟨true, some Cb.marketData⟩
    ⟨none, some "NonStreaming"⟩ rfl (by decide) rfl rfl rfl rfl rfl rfl
    (by decide) (by decide) (by decide) (by decide) rfl

/-- The processing tail never changes the controller state. -/
theorem completeStory_fst (p : Prims) (c : Ctrl) (name : String) (frag : List Nat) :
    (completeStory p c name frag).1 = c := by
  unfold completeStory
  repeat' split
  all_goals rfl

/-- The envelope-management core changes nothing but the envelope map. -/
theorem processFragment_fst (p : Prims) (c : Ctrl) (name key : String) (frag : List Nat)
    (fragNum totSize : Nat) :
    (processFragment p c name key frag fragNum totSize).1
      = { c with newsEnvelope := (processFragment p c name key frag fragNum totSize).1.newsEnvelope } := by
  unfold processFragment
  by_cases hnum : 1 < fragNum
  · rw [if_pos hnum]
    cases hge : getNewsEnvelope c.newsEnvelope key with
    | none => simp [completeStory_fst]
    | some env =>
      by_cases hlen : env.fragments.length + frag.length < env.totalSize <;>
        simp [hlen, completeStory_fst]
  · rw [if_neg hnum]
    by_cases hlen : frag.length < totSize <;>
      simp [hlen, completeStory_fst]

/-- The reassembler changes nothing but the envelope map. -/
theorem processNewsEnvelope_fst (p : Prims) (c : Ctrl) (m : Msg) :
    (processNewsEnvelope p c m).1
      = { c with newsEnvelope := (processNewsEnvelope p c m).1.newsEnvelope } := by
  unfold processNewsEnvelope
  by_cases hg : (m.mtype == some "Update" && m.domain == some MRN_DOMAIN) = true
  · rw [if_pos hg]
    cases hf : m.fields with
    | none => rfl
    | some f =>
      cases ha : p.atob f.FRAGMENT with
      | error e => simp [ha]
      | ok frag =>
        cases hk : m.keyName with
        | none => simp [ha, hk]
        | some name =>
          simp only [ha, hk]
          exact processFragment_fst p c name (mkKey name f.MRN_SRC f.GUID) frag f.FRAG_NUM f.TOT_SIZE
  · rw [if_neg hg]

/-- The reassembler never changes the status-callback registration. -/
theorem processNewsEnvelope_statusCb (p : Prims) (c : Ctrl) (m : Msg) :
    (processNewsEnvelope p c m).1.statusCb = c.statusCb := by
  rw [processNewsEnvelope_fst]

/-- Callback invocation never changes the status-callback registration. -/
theorem invokeCb_statusCb (p : Prims) (c : Ctrl) (cb : Option Cb) (m : Msg) :
    (invokeCb p c cb m).1.statusCb = c.statusCb := by
  cases cb with
  | none => rfl
  | some k =>
    cases k with
    | marketData => rfl
    | processNews =>
      cases hp : processNewsEnvelope p c m with
      | mk c' evs =>
        have hst := processNewsEnvelope_statusCb p c m
        rw [hp] at hst
        unfold invokeCb
        simp only [hp]
        exact hst

/-- One dispatch step never changes the status-callback registration. -/
theorem dispatchOne_statusCb (p : Prims) (c : Ctrl) (m : Msg) :
    (dispatchOne p c m).1.statusCb = c.statusCb := by
  unfold dispatchOne
  repeat' split
  all_goals first
    | rfl
    | simp [invokeCb_statusCb]

/-- Claim C7: an inbound frame whose text fails to parse produces exactly one
processingError status event and leaves the whole state (slot table and
envelope map included) unchanged; and any exception raised while dispatching
an element of a frame abandons the remaining elements, yielding the events
already emitted plus exactly one trailing processingError. -/
theorem claim_C7_frame_error (p : Prims) (c : Ctrl) (raw e : String) (m : Msg)
    (rest : List Msg) (hcb : c.statusCb = true) :
    (raw.length > 0 → p.parseFrame raw = .error e →
        onMessage p c raw = (c, [Event.processingError e]))
    ∧ (∀ c' evs emsg, dispatchOne p c m = (c', evs, some emsg) →
        dispatchElems p c (m :: rest) = (c', evs ++ [Event.processingError emsg])) := by
  constructor
  · intro hraw hp
    simp [onMessage, hraw, hp, perr, hcb]
  · intro c' evs emsg hd
    have hcb' : c'.statusCb = true := by
      have hpre := dispatchOne_statusCb p c m
      rw [hd] at hpre
      rw [show c' = (c', evs, some emsg).1 from rfl, hpre, hcb]
    simp [dispatchElems, hd, perr, hcb']

/-- A Login-domain message lacking its State object: dispatch throws reading
State.Data. -/
def mNoState : Msg :=
  { mtype := none, domain := some "Login", id := none, state := none,
    keyName := none, fields := none }

/-- Witness for claim C7: pTriv's frame parser rejects the text, and the
stateless login message raises a TypeError whose dispatch abandons the two
remaining elements of the frame. -/
theorem claim_C7_frame_error_witness :
    onMessage pTriv cBase "[oops" = (cBase, [Event.processingError "Unexpected token"])
    ∧ dispatchElems pTriv cBase (mNoState :: [mC1, mC6])
        = (cBase, [] ++ [Event.processingError undefErr]) :=
  ⟨(claim_C7_frame_error pTriv cBase "[oops" "Unexpected token" mNoState [mC1, mC6] rfl).1
      (by decide) rfl,
   (claim_C7_frame_error pTriv cBase "[oops" "Unexpected token" mNoState [mC1, mC6] rfl).2
      cBase [] undefErr rfl⟩

/-- Lookup after store at the same key yields the stored envelope. -/
theorem getNewsEnvelope_set_self (mp : List (String × Envelope)) (k : String) (v : Envelope) :
    getNewsEnvelope (setNewsEnvelope mp k v) k = some v := by
  induction mp with
  | nil => simp [setNewsEnvelope, getNewsEnvelope]
  | cons kv rest ih =>
    obtain ⟨k', v'⟩ := kv
    by_cases hk : k' == k
    · simp [setNewsEnvelope, getNewsEnvelope, hk]
    · simp [setNewsEnvelope, getNewsEnvelope, hk, ih]

/-- Lookup after delete at the same key yields nothing. -/
theorem getNewsEnvelope_delete_self (mp : List (String × Envelope)) (k : String) :
    getNewsEnvelope (deleteNewsEnvelope mp k) k = none := by
  induction mp with
  | nil => rfl
  | cons kv rest ih =>
    obtain ⟨k', v'⟩ := kv
    by_cases hk : k' == k
    · simp [deleteNewsEnvelope, hk, ih]
    · simp [deleteNewsEnvelope, getNewsEnvelope, hk, ih]

/-- Deleting a key absorbs a prior store at that key. -/
theorem deleteNewsEnvelope_set (mp : List (String × Envelope)) (k : String) (v : Envelope) :
    deleteNewsEnvelope (setNewsEnvelope mp k v) k = deleteNewsEnvelope mp k := by
  induction mp with
  | nil => simp [setNewsEnvelope, deleteNewsEnvelope]
  | cons kv rest ih =>
    obtain ⟨k', v'⟩ := kv
    by_cases hk : k' == k
    · simp [setNewsEnvelope, deleteNewsEnvelope, hk]
    · simp [setNewsEnvelope, deleteNewsEnvelope, hk, ih]

/-- Every binding after a store is the stored one or an original one. -/
theorem mem_setNewsEnvelope (mp : List (String × Envelope)) (k : String) (v : Envelope) :
    ∀ kv ∈ setNewsEnvelope mp k v, kv = (k, v) ∨ kv ∈ mp := by
  induction mp with
  | nil =>
    intro kv hkv
    simp [setNewsEnvelope] at hkv
    left; exact hkv
  | cons kv0 rest ih =>
    obtain ⟨k', v'⟩ := kv0
    intro kv hkv
    by_cases hk : k' == k
    · simp only [setNewsEnvelope, if_pos hk] at hkv
      rcases List.mem_cons.mp hkv with h | h
      · left; exact h
      · right; exact List.mem_cons_of_mem _ h
    · simp only [setNewsEnvelope, if_neg hk] at hkv
      rcases List.mem_cons.mp hkv with h | h
      · right; rw [h]; exact List.mem_cons_self _ _
      · rcases ih kv h with h2 | h2
        · left; exact h2
        · right; exact List.mem_cons_of_mem _ h2

/-- Every binding after a delete is an original one. -/
theorem mem_deleteNewsEnvelope (mp : List (String × Envelope)) (k : String) :
    ∀ kv ∈ deleteNewsEnvelope mp k, kv ∈ mp := by
  induction mp with
  | nil => intro kv hkv; simp [deleteNewsEnvelope] at hkv
  | cons kv0 rest ih =>
    obtain ⟨k', v'⟩ := kv0
    intro kv hkv
    by_cases hk : k' == k
    · simp only [deleteNewsEnvelope, if_pos hk] at hkv
      exact List.mem_cons_of_mem _ (ih kv hkv)
    · simp only [deleteNewsEnvelope, if_neg hk] at hkv
      rcases List.mem_cons.mp hkv with h | h
      · rw [h]; exact List.mem_cons_self _ _
      · exact List.mem_cons_of_mem _ (ih kv h)

/-- Storing an envelope within its declared size preserves the invariant. -/
theorem envInv_set (mp : List (String × Envelope)) (k : String) (v : Envelope)
    (hinv : envInv mp) (hv : v.fragments.length ≤ v.totalSize) :
    envInv (setNewsEnvelope mp k v) := by
  intro kv hkv
  rcases mem_setNewsEnvelope mp k v kv hkv with rfl | h
  · exact hv
  · exact hinv kv h

/-- Deleting preserves the invariant. -/
theorem envInv_delete (mp : List (String × Envelope)) (k : String)
    (hinv : envInv mp) : envInv (deleteNewsEnvelope mp k) :=
  fun kv hkv => hinv kv (mem_deleteNewsEnvelope mp k kv hkv)

/-- The envelope-management core preserves the invariant. -/
theorem processFragment_envInv (p : Prims) (c : Ctrl) (name key : String) (frag : List Nat)
    (fragNum totSize : Nat) (hinv : envInv c.newsEnvelope) :
    envInv (processFragment p c name key frag fragNum totSize).1.newsEnvelope := by
  unfold processFragment
  by_cases hnum : 1 < fragNum
  · rw [if_pos hnum]
    cases hge : getNewsEnvelope c.newsEnvelope key with
    | none =>
      simp only [completeStory_fst]
      exact hinv
    | some env =>
      by_cases hlen : (env.fragments ++ frag).length < env.totalSize
      · simp only [if_pos hlen]
        exact envInv_set _ _ _ hinv (le_of_lt (by simpa using hlen))
      · simp only [if_neg hlen, completeStory_fst]
        exact envInv_delete _ _ hinv
  · rw [if_neg hnum]
    by_cases hlen : frag.length < totSize
    · simp only [if_pos hlen]
      exact envInv_set _ _ _ hinv (le_of_lt hlen)
    · simp only [if_neg hlen, completeStory_fst]
      exact hinv

/-- The reassembler preserves the invariant. -/
theorem processNewsEnvelope_envInv (p : Prims) (c : Ctrl) (m : Msg)
    (hinv : envInv c.newsEnvelope) :
    envInv (processNewsEnvelope p c m).1.newsEnvelope := by
  unfold processNewsEnvelope
  by_cases hg : (m.mtype == some "Update" && m.domain == some MRN_DOMAIN) = true
  · rw [if_pos hg]
    cases hf : m.fields with
    | none => exact hinv
    | some f =>
      cases ha : p.atob f.FRAGMENT with
      | error e => simp only [ha]; exact hinv
      | ok frag =>
        cases hk : m.keyName with
        | none => simp only [ha, hk]; exact hinv
        | some name =>
          simp only [ha, hk]
          exact processFragment_envInv p c name _ frag _ _ hinv
  · rw [if_neg hg]; exact hinv

/-- Claim C8: every reassembler step preserves the invariant that each stored
envelope satisfies accumulated.length <= totalSize (the code in fact keeps it
strictly below); and for a well-formed continuation fragment whose key holds
an envelope, that envelope is removed by the step exactly when the appended
fragment makes the accumulated length reach the declared total size (it is
kept, updated, otherwise) — so an envelope is removed exactly once, at
completion. -/
theorem claim_C8_envelope_invariant (p : Prims) (c : Ctrl) (m : Msg)
    (hinv : envInv c.newsEnvelope) :
    envInv (processNewsEnvelope p c m).1.newsEnvelope
    ∧ (∀ f name frag env,
        m.mtype = some "Update" → m.domain = some MRN_DOMAIN →
        m.fields = some f → m.keyName = some name →
        p.atob f.FRAGMENT = .ok frag → 1 < f.FRAG_NUM →
        getNewsEnvelope c.newsEnvelope (mkKey name f.MRN_SRC f.GUID) = some env →
        (getNewsEnvelope (processNewsEnvelope p c m).1.newsEnvelope
            (mkKey name f.MRN_SRC f.GUID) = none
          ↔ env.totalSize ≤ (env.fragments ++ frag).length)) := by
  constructor
  · exact processNewsEnvelope_envInv p c m hinv
  · intro f name frag env hty hdom hf hk ha hnum hge
    have hg : (m.mtype == some "Update" && m.domain == some MRN_DOMAIN) = true := by
      rw [hty, hdom]; rfl
    unfold processNewsEnvelope
    rw [if_pos hg]
    simp only [hf, ha, hk]
    unfold processFragment
    rw [if_pos hnum]
    simp only [hge]
    by_cases hlen : (env.fragments ++ frag).length < env.totalSize
    · simp only [if_pos hlen]
      simp [getNewsEnvelope_set_self]
      simpa using hlen
    · simp only [if_neg hlen, completeStory_fst]
      simp [getNewsEnvelope_delete_self]
      simp only [List.length_append] at hlen
      omega

/-- Primitives for the C8 witness: decode the continuation text to two
bytes. -/
def pC8 : Prims :=
  { pTriv with atob := fun t => if t == "BB" then .ok [1, 2] else .error "bad" }

/-- A controller holding a one-byte envelope under R:S:G with declared size
3. -/
def cC8 : Ctrl := { cBase with newsEnvelope := [("R:S:G", ⟨[0], 3⟩)] }

/-- The completing continuation fragment for the C8 witness. -/
def mC8 : Msg := mkNewsMsg "R" "S" "G" "BB" 2 3

/-- The C8 witness controller satisfies the invariant. -/
theorem hinvC8 : envInv cC8.newsEnvelope := by
  intro kv hkv
  cases hkv with
  | head => decide
  | tail _ h => cases h

/-- Witness for claim C8 at a concrete completing continuation. -/
theorem claim_C8_envelope_invariant_witness :
    envInv (processNewsEnvelope pC8 cC8 mC8).1.newsEnvelope
    ∧ (getNewsEnvelope (processNewsEnvelope pC8 cC8 mC8).1.newsEnvelope
          (mkKey "R" "S" "G") = none
        ↔ (3 : Nat) ≤ (([0] : List Nat) ++ [1, 2]).length) :=
  ⟨(claim_C8_envelope_invariant pC8 cC8 mC8 hinvC8).1,
   (claim_C8_envelope_invariant pC8 cC8 mC8 hinvC8).2
     ⟨"BB", 2, 3, "G", "S"⟩ "R" [1, 2] ⟨[0], 3⟩ rfl rfl rfl rfl rfl (by decide) rfl⟩

theorem joinDecs_cons (q : String × List Nat) (fs : List (String × List Nat)) :
    joinDecs (q :: fs) = q.2 ++ joinDecs fs := by
  simp [joinDecs]

theorem sumLens_cons (q : String × List Nat) (fs : List (String × List Nat)) :
    sumLens (q :: fs) = q.2.length + sumLens fs := by
  simp [sumLens]

/-- A nonempty run of fragments with positive decoded lengths has positive
total length. -/
theorem sumLens_pos (fs : List (String × List Nat)) (hne : fs ≠ [])
    (hpos : ∀ q ∈ fs, 0 < q.2.length) : 0 < sumLens fs := by
  cases fs with
  | nil => exact absurd rfl hne
  | cons q fs' =>
    rw [sumLens_cons]
    exact Nat.lt_of_lt_of_le (hpos q (List.mem_cons_self _ _)) (Nat.le_add_right _ _)

/-- On a well-formed news update whose fragment decodes, the reassembler is
exactly the envelope-management core. -/
theorem processNewsEnvelope_mkNewsMsg (p : Prims) (c : Ctrl)
    (name src guid fragTxt : String) (num totSize : Nat) (frag : List Nat)
    (ha : p.atob fragTxt = .ok frag) :
    processNewsEnvelope p c (mkNewsMsg name src guid fragTxt num totSize)
      = processFragment p c name (mkKey name src guid) frag num totSize := by
  simp [processNewsEnvelope, mkNewsMsg, ha]

/-- Processing a completing run of continuation fragments (sequence numbers
from k > 1) against an existing envelope holding acc with declared size T:
every intermediate step stores the grown accumulator without emitting, and
the last fragment completes the story — the envelope is deleted and the
processing tail runs on the full accumulated byte sequence. -/
theorem processNewsSeq_continuations (p : Prims) (name src guid : String) (T : Nat) :
    ∀ (fl : List (String × List Nat)) (k : Nat) (c : Ctrl) (acc : List Nat),
      fl ≠ [] →
      (∀ q ∈ fl, p.atob q.1 = Except.ok q.2) →
      (∀ q ∈ fl, 0 < q.2.length) →
      1 < k →
      getNewsEnvelope c.newsEnvelope (mkKey name src guid) = some ⟨acc, T⟩ →
      acc.length + sumLens fl = T →
      acc.length < T →
      processNewsSeq p c (mkNewsMsgs name src guid T k fl)
        = completeStory p
            { c with newsEnvelope := deleteNewsEnvelope c.newsEnvelope (mkKey name src guid) }
            name (acc ++ joinDecs fl) := by
  intro fl
  induction fl with
  | nil => intro k c acc hne; exact absurd rfl hne
  | cons q fs ih =>
    intro k c acc hne hatob hpos hk henv hsum hlt
    have ha : p.atob q.1 = Except.ok q.2 := hatob q (List.mem_cons_self _ _)
    have hstep := processNewsEnvelope_mkNewsMsg p c name src guid q.1 k T q.2 ha
    cases hfs : fs with
    | nil =>
      subst hfs
      have hfull : (acc ++ q.2).length = T := by
        rw [List.length_append]
        rw [sumLens_cons] at hsum
        simpa [sumLens] using hsum
      have hpf : processFragment p c name (mkKey name src guid) q.2 k T
          = completeStory p
              { c with newsEnvelope := deleteNewsEnvelope c.newsEnvelope (mkKey name src guid) }
              name (acc ++ q.2) := by
        unfold processFragment
        rw [if_pos hk]
        simp only [henv]
        rw [if_neg (by simp [hfull])]
      rw [← hstep] at hpf
      cases hcs : completeStory p
          { c with newsEnvelope := deleteNewsEnvelope c.newsEnvelope (mkKey name src guid) }
          name (acc ++ q.2) with
      | mk c2 evs =>
        rw [hcs] at hpf
        simp only [mkNewsMsgs, processNewsSeq, hpf]
        simp [joinDecs, hcs]
    | cons q' fs' =>
      have hne' : fs ≠ [] := by rw [hfs]; simp
      rw [← hfs]
      have hsumfs : 0 < sumLens fs :=
        sumLens_pos fs hne' (fun r hr => hpos r (List.mem_cons_of_mem _ hr))
      have hlt2 : (acc ++ q.2).length < T := by
        rw [List.length_append]
        rw [sumLens_cons] at hsum
        omega
      have hpf : processFragment p c name (mkKey name src guid) q.2 k T
          = ({ c with newsEnvelope :=
                setNewsEnvelope c.newsEnvelope (mkKey name src guid) ⟨acc ++ q.2, T⟩ },
             ([] : List Event)) := by
        unfold processFragment
        rw [if_pos hk]
        simp only [henv]
        rw [if_pos (by simpa using hlt2)]
      rw [← hstep] at hpf
      have hrec := ih (k + 1)
        { c with newsEnvelope :=
            setNewsEnvelope c.newsEnvelope (mkKey name src guid) ⟨acc ++ q.2, T⟩ }
        (acc ++ q.2) hne'
        (fun r hr => hatob r (List.mem_cons_of_mem _ hr))
        (fun r hr => hpos r (List.mem_cons_of_mem _ hr))
        (Nat.lt_succ_of_lt hk)
        (by simpa using getNewsEnvelope_set_self c.newsEnvelope (mkKey name src guid) ⟨acc ++ q.2, T⟩)
        (by rw [List.length_append]; rw [sumLens_cons] at hsum; omega)
        hlt2
      simp only [mkNewsMsgs, processNewsSeq, hpf, hrec]
      simp only [deleteNewsEnvelope_set]
      rw [joinDecs_cons, ← List.append_assoc]
      cases hcs : completeStory p
          { c with newsEnvelope := deleteNewsEnvelope c.newsEnvelope (mkKey name src guid) }
          name (acc ++ q.2 ++ joinDecs fs) with
      | mk c3 evs3 => simp

/-- Claim C4: a multi-fragment story delivered in sequence-number order 1..n
under one key, with decoded fragment lengths summing to the declared total
size, makes the reassembler invoke the news callback exactly once, with the
content code and the document parsed from inflating the concatenation of all
decoded fragments, and the envelope for that key is absent from the map
afterward. -/
theorem claim_C4_reassembly (p : Prims) (c : Ctrl) (name src guid : String)
    (fl : List (String × List Nat)) (T : Nat) (s : String) (doc : Json)
    (hn : 2 ≤ fl.length)
    (hatob : ∀ q ∈ fl, p.atob q.1 = Except.ok q.2)
    (hpos : ∀ q ∈ fl, 0 < q.2.length)
    (hsum : sumLens fl = T)
    (hinf : p.inflate (joinDecs fl) = Except.ok s)
    (hparse : p.jsonParse s = Except.ok doc)
    (hcb : c.newsStoryCb = true) :
    (processNewsSeq p c (mkNewsMsgs name src guid T 1 fl)).2 = [Event.newsStory name doc]
    ∧ getNewsEnvelope (processNewsSeq p c (mkNewsMsgs name src guid T 1 fl)).1.newsEnvelope
        (mkKey name src guid) = none := by
  cases hfl : fl with
  | nil => rw [hfl] at hn; simp at hn
  | cons q fs =>
    subst hfl
    have hne' : fs ≠ [] := by
      cases fs with
      | nil => simp at hn
      | cons _ _ => simp
    have ha : p.atob q.1 = Except.ok q.2 := hatob q (List.mem_cons_self _ _)
    have hsumfs : 0 < sumLens fs :=
      sumLens_pos fs hne' (fun r hr => hpos r (List.mem_cons_of_mem _ hr))
    have hlt1 : q.2.length < T := by
      rw [sumLens_cons] at hsum
      omega
    have hstep := processNewsEnvelope_mkNewsMsg p c name src guid q.1 1 T q.2 ha
    have hpf : processFragment p c name (mkKey name src guid) q.2 1 T
        = ({ c with newsEnvelope :=
              setNewsEnvelope c.newsEnvelope (mkKey name src guid) ⟨q.2, T⟩ },
           ([] : List Event)) := by
      unfold processFragment
      rw [if_neg (by omega), if_pos hlt1]
    rw [← hstep] at hpf
    have hrec := processNewsSeq_continuations p name src guid T fs 2
      { c with newsEnvelope :=
          setNewsEnvelope c.newsEnvelope (mkKey name src guid) ⟨q.2, T⟩ }
      q.2 hne'
      (fun r hr => hatob r (List.mem_cons_of_mem _ hr))
      (fun r hr => hpos r (List.mem_cons_of_mem _ hr))
      (by omega)
      (by simpa using getNewsEnvelope_set_self c.newsEnvelope (mkKey name src guid) ⟨q.2, T⟩)
      (by rw [sumLens_cons] at hsum; omega)
      hlt1
    simp only [deleteNewsEnvelope_set] at hrec
    have hcs : completeStory p
        { c with newsEnvelope := deleteNewsEnvelope c.newsEnvelope (mkKey name src guid) }
        name (q.2 ++ joinDecs fs)
        = ({ c with newsEnvelope := deleteNewsEnvelope c.newsEnvelope (mkKey name src guid) },
           [Event.newsStory name doc]) := by
      unfold completeStory
      have hje : q.2 ++ joinDecs fs = joinDecs (q :: fs) := (joinDecs_cons q fs).symm
      rw [hje]
      simp only [hinf, hparse]
      simp [hcb]
    simp only [mkNewsMsgs, processNewsSeq, hpf, hrec, hcs]
    simp [getNewsEnvelope_delete_self]

/-- Primitives for the C4 witness: two concrete fragments whose
concatenation inflates to a parseable story. -/
def pC4 : Prims where
  atob := fun t =>
    if t == "AA" then .ok [0] else if t == "BB" then .ok [1, 2] else .error "bad base64"
  inflate := fun b => if b == [0, 1, 2] then .ok "story" else .error "incorrect header check"
  jsonParse := fun t => if t == "story" then .ok (Json.str "d") else .error "parse fail"
  parseFrame := fun _ => .error "Unexpected token"

/-- The concrete two-fragment run for the C4 witness. -/
def flC4 : List (String × List Nat) := [("AA", [0]), ("BB", [1, 2])]

/-- Witness for claim C4: the two-fragment story with declared size 3 is
assembled, decompressed, parsed, delivered once, and its envelope is gone. -/
theorem claim_C4_reassembly_witness :
    (processNewsSeq pC4 cBase (mkNewsMsgs "R" "S" "G" 3 1 flC4)).2
      = [Event.newsStory "R" (Json.str "d")]
    ∧ getNewsEnvelope (processNewsSeq pC4 cBase (mkNewsMsgs "R" "S" "G" 3 1 flC4)).1.newsEnvelope
        (mkKey "R" "S" "G") = none :=
  claim_C4_reassembly pC4 cBase "R" "S" "G" flC4 3 "story" (Json.str "d")
    (by decide)
    (by intro q hq
        cases hq with
        | head => rfl
        | tail _ h =>
          cases h with
          | head => rfl
          | tail _ h2 => cases h2)
    (by intro q hq
        cases hq with
        | head => decide
        | tail _ h =>
          cases h with
          | head => decide
          | tail _ h2 => cases h2)
    rfl rfl rfl rfl

/-- A logged-out controller still holding its slot table. -/
def cLoggedOut : Ctrl :=
  { cBase with loggedIn := false, requestIDs := [⟨true, none⟩, ⟨true, some Cb.marketData⟩] }

/-- Witness for claim C10 at a concrete logged-out controller. -/
theorem claim_C10_not_logged_in_witness :
    requestData cLoggedOut "TRI.N" "ELEKTRON" true "MarketPrice" = (cLoggedOut, [], 0)
    ∧ requestNews cLoggedOut "ELEKTRON" "MRN_STORY"
      = ({ cLoggedOut with
            requestIDs := setCallback cLoggedOut.requestIDs 0 (some Cb.processNews) }, [], 0)
    ∧ (∀ s rest, cLoggedOut.requestIDs = s :: rest →
        (requestNews cLoggedOut "ELEKTRON" "MRN_STORY").1.requestIDs
          = { s with processingCb := some Cb.processNews } :: rest)
    ∧ (cLoggedOut.requestIDs = [] →
        requestNews cLoggedOut "ELEKTRON" "MRN_STORY" = (cLoggedOut, [], 0)) :=
  claim_C10_not_logged_in cLoggedOut "TRI.N" "ELEKTRON" "MarketPrice" true rfl

end TRWS
